import Mathlib

/-!
Verification of the LangGraph-Partner repository against its specification.
Each Python function relevant to the claims is shallowly embedded as an
executable Lean definition; machine floats are modelled as exact rationals
and `datetime` instants as rationals (noted at each use); Python `\d`, `\s`,
`str.lower()` are modelled over ASCII, which covers every input the claims
mention.
-/

namespace PyStr

/-- The ASCII part of Python's whitespace class used by `str.strip()` and
the regex class `\s` (space, tab, newline, carriage return, form feed,
vertical tab). -/
def isPySpace (c : Char) : Bool :=
  c = ' ' || c = '\t' || c = '\n' || c = '\r' || c = '\x0b' || c = '\x0c'

/-- Remove trailing whitespace characters from a character list. -/
def dropTrailingWs : List Char → List Char
  | [] => []
  | c :: cs =>
    let r := dropTrailingWs cs
    if r = [] && isPySpace c then [] else c :: r

/-- Python `str.strip()` (no argument): remove leading and trailing
whitespace. -/
def pyStrip (cs : List Char) : List Char :=
  dropTrailingWs (cs.dropWhile isPySpace)

/-- Does `hay` start with `needle`? (Python `str.startswith`.) -/
def startsWithL : List Char → List Char → Bool
  | _, [] => true
  | [], _ :: _ => false
  | h :: hs, n :: ns => h = n && startsWithL hs ns

/-- Python `needle in hay` substring test. -/
def hasSub : List Char → List Char → Bool
  | hay, needle =>
    startsWithL hay needle ||
      match hay with
      | [] => false
      | _ :: t => hasSub t needle

/-- Python `str.lower()` restricted to ASCII letters. -/
def pyLower (cs : List Char) : List Char :=
  cs.map Char.toLower

/-- Python `str.strip('[]')`: drop leading and trailing `[` and `]`. -/
def stripBrackets (cs : List Char) : List Char :=
  let isBr : Char → Bool := fun c => c = '[' || c = ']'
  ((cs.dropWhile isBr).reverse.dropWhile isBr).reverse

/-- Python `str.split('\n')` over the character list: split at every
newline, keeping empty pieces (`"" → [""]`, `"a\n" → ["a", ""]`). -/
def splitNl : List Char → List (List Char)
  | [] => [[]]
  | c :: rest =>
    if c = '\n' then [] :: splitNl rest
    else
      match splitNl rest with
      | l :: ls => (c :: l) :: ls
      | [] => [[c]]

/-- Python `content.split('\n')` on strings. -/
def pySplitLines (s : String) : List String :=
  (splitNl s.data).map String.mk

/-- Split at the first occurrence of `sep` (Python `str.split(sep, 1)`
when `sep` occurs); returns `none` when `sep` is absent. -/
def splitFirst (sep : Char) : List Char → Option (List Char × List Char)
  | [] => none
  | c :: cs =>
    if c = sep then some ([], cs)
    else match splitFirst sep cs with
      | some (l, r) => some (c :: l, r)
      | none => none

end PyStr

namespace PersonaManager

open PyStr

/-- Embedding of the `PersonaInfo` dataclass
(src/utils/persona_manager.py).  `__post_init__` replaces `None` list and
dict fields with empty ones, so `expertise_areas` and `interests` are
always actual lists. -/
structure PersonaInfo where
  name : String := ""
  role : String := ""
  background : String := ""
  communication_style : String := ""
  expertise_areas : List String := []
  interests : List String := []
  working_style : String := ""
  deriving Repr, DecidableEq

/-- One iteration of the parsing loop of
`PersonaManager._parse_markdown_persona`: the raw line is first replaced
by `line.strip()`, then the branch conditions are tested on the stripped
line, exactly as in the source.  Note two source facts embedded verbatim:
the third branch tests `line.startswith('  - ')` on the already stripped
line, and inside it the first sub-branch tests `persona.interests is not
None`, which `__post_init__` makes always true. -/
def parseLine (st : String × PersonaInfo) (rawLine : String) : String × PersonaInfo :=
  let currentSection := st.1
  let persona := st.2
  let line := pyStrip rawLine.data
  if startsWithL line "# ".data then
    (String.mk (pyLower (line.drop 2)), persona)
  else if startsWithL line "- **".data && hasSub line [':'] then
    match splitFirst ':' (line.drop 4) with
    | none => (currentSection, persona)
    | some (k, v) =>
      let key := String.mk (pyStrip k)
      let value := String.mk (stripBrackets (pyStrip v))
      let persona' :=
        if currentSection = "basic information" then
          if pyLower key.data = "name".data then { persona with name := value }
          else if pyLower key.data = "role".data then { persona with role := value }
          else if pyLower key.data = "background".data then { persona with background := value }
          else persona
        else if currentSection = "communication preferences" then
          if hasSub (pyLower key.data) "language style".data then
            { persona with communication_style := value }
          else persona
        else if currentSection = "working style" then
          if hasSub (pyLower key.data) "problem-solving approach".data then
            { persona with working_style := value }
          else persona
        else persona
      (currentSection, persona')
  else if startsWithL line "  - ".data && currentSection ≠ "" then
    let item := String.mk (pyStrip (line.drop 4))
    if hasSub (pyLower currentSection.data) "interests".data ||
        hasSub (pyLower currentSection.data) "expertise".data then
      -- Source: `if item and persona.interests is not None:` — `interests`
      -- is never `None`, so a non-empty item always lands here; the `elif`
      -- appending to `expertise_areas` is unreachable.
      if item ≠ "" then
        (currentSection, { persona with interests := persona.interests ++ [item] })
      else (currentSection, persona)
    else (currentSection, persona)
  else (currentSection, persona)

/-- Embedding of `PersonaManager._parse_markdown_persona` applied to a
file's text content (the existing-file path of the source; a missing file
returns the default `PersonaInfo`, which this also yields on any content
with no matching lines). -/
def parse_markdown_persona (content : String) : PersonaInfo :=
  (List.foldl parseLine ("", {}) (pySplitLines content)).2

end PersonaManager

namespace Calculator

/-- The character class of the validation regex `^[\d+\-*/().]+$` in
`safe_calculate` (src/tools/calculator.py); `\d` modelled over ASCII
digits. -/
def allowedChar (c : Char) : Bool :=
  c.isDigit || c = '+' || c = '-' || c = '*' || c = '/' ||
    c = '(' || c = ')' || c = '.'

/-- The part of the expression the validation regex's character class
actually constrains: since Python's `$` also matches just before one
final newline, a single trailing newline is exempt. -/
def whitelistBody (cs : List Char) : List Char :=
  if cs.getLast? = some '\n' then cs.dropLast else cs

/-- `re.match(r'^[\d+\-*/().]+$', s)`: the class excludes `'\n'` and
Python's `$` also matches just before one final newline, so the regex
matches exactly when, after dropping a single trailing newline, a
nonempty all-allowed string remains. -/
def reMatchesWhitelist (cs : List Char) : Bool :=
  !(whitelistBody cs).isEmpty && (whitelistBody cs).all allowedChar

/-- Python `expression.replace(" ", "")`: remove every space character. -/
def stripSpaces (s : String) : List Char :=
  s.data.filter (fun c => c ≠ ' ')

inductive Tok where
  | num (q : ℚ)
  | plus | minus | star | slash | dstar | dslash | lp | rp
  deriving Repr, DecidableEq

/-- Error outcomes of evaluating the expression, mirroring the exception
classes `safe_calculate` catches: `ZeroDivisionError`, `SyntaxError`, and
the generic `Exception` arm. -/
inductive CalcErr where
  | divZero | synErr | generic
  deriving Repr, DecidableEq

/-- Value of a digit run. -/
def digitsToNat (ds : List Char) : Nat :=
  ds.foldl (fun n c => 10 * n + (c.toNat - '0'.toNat)) 0

/-- Parse one numeric-literal character run (digits and dots) into a
rational, enforcing Python's literal grammar: at most one dot, at least
one digit, and a multi-digit integer literal may not start with `0`
unless it is all zeros (`01` is a `SyntaxError`, `00` and `00.5` are
legal).  Decimal literals are modelled exactly (Python's binary-float
rounding of literals is a noted modelling boundary). -/
def numOfRun (run : List Char) : Except CalcErr ℚ :=
  if run.count '.' > 1 then .error .synErr
  else if run.count '.' = 1 then
    let intPart := run.takeWhile (fun c => c ≠ '.')
    let fracPart := (run.dropWhile (fun c => c ≠ '.')).drop 1
    if intPart.isEmpty && fracPart.isEmpty then .error .synErr
    else .ok ((digitsToNat intPart : ℚ) +
      (digitsToNat fracPart : ℚ) / ((10 : ℚ) ^ fracPart.length))
  else
    match run with
    | [] => .error .synErr
    | '0' :: rest =>
      if rest.all (fun c => c = '0') then .ok 0 else .error .synErr
    | _ => .ok (digitsToNat run : ℚ)

/-- Is the character part of a numeric-literal run? -/
def isNumChar (c : Char) : Bool := c.isDigit || c = '.'

/-- Tokenizer for the expression sub-language reachable through the
whitelist: numbers, `+ - * / // **` and parentheses.  A single trailing
newline is tolerated, as `eval` tolerates it; any other character is a
syntax error. -/
def tokenize : List Char → Except CalcErr (List Tok)
  | [] => .ok []
  | '*' :: '*' :: cs => do let ts ← tokenize cs; .ok (Tok.dstar :: ts)
  | '/' :: '/' :: cs => do let ts ← tokenize cs; .ok (Tok.dslash :: ts)
  | '+' :: cs => do let ts ← tokenize cs; .ok (Tok.plus :: ts)
  | '-' :: cs => do let ts ← tokenize cs; .ok (Tok.minus :: ts)
  | '*' :: cs => do let ts ← tokenize cs; .ok (Tok.star :: ts)
  | '/' :: cs => do let ts ← tokenize cs; .ok (Tok.slash :: ts)
  | '(' :: cs => do let ts ← tokenize cs; .ok (Tok.lp :: ts)
  | ')' :: cs => do let ts ← tokenize cs; .ok (Tok.rp :: ts)
  | '\n' :: cs => if cs.isEmpty then .ok [] else .error .synErr
  | c :: cs =>
    if isNumChar c then do
      let q ← numOfRun (c :: cs.takeWhile isNumChar)
      let ts ← tokenize (cs.dropWhile isNumChar)
      .ok (Tok.num q :: ts)
    else .error .synErr
termination_by cs => cs.length
decreasing_by
  all_goals simp_wf
  all_goals try omega
  all_goals
    have h : ∀ l : List Char, (l.dropWhile isNumChar).length ≤ l.length := by
      intro l
      induction l with
      | nil => simp [List.dropWhile]
      | cons a t ih =>
        by_cases hp : isNumChar a <;> simp [List.dropWhile, hp] <;> omega
  all_goals exact Nat.lt_succ_of_le (h cs)

/-- Python `**` on rationals: integral exponents are exact (with
`ZeroDivisionError` on `0 ** negative`); a fractional exponent would
produce an irrational float, outside this exact model, and is mapped to
the generic-error arm (modelling boundary; unreachable from the claims'
inputs). -/
def pyPow (a e : ℚ) : Except CalcErr ℚ :=
  if e.den = 1 then
    if a = 0 && e.num < 0 then .error .divZero
    else .ok (a ^ e.num)
  else .error .generic

/-- Python `//` (floor division). -/
def pyFloorDiv (a b : ℚ) : Except CalcErr ℚ :=
  if b = 0 then .error .divZero else .ok ((⌊a / b⌋ : ℤ) : ℚ)

/-- Python `/` (true division, exact in this model). -/
def pyDiv (a b : ℚ) : Except CalcErr ℚ :=
  if b = 0 then .error .divZero else .ok (a / b)

mutual

/-- `expr := term (('+'|'-') term)*` of Python's arithmetic grammar. -/
def parseE : Nat → List Tok → Except CalcErr (ℚ × List Tok)
  | 0, _ => .error .generic
  | fuel + 1, ts => do
    let (v, ts1) ← parseT fuel ts
    parseETail fuel v ts1

def parseETail : Nat → ℚ → List Tok → Except CalcErr (ℚ × List Tok)
  | 0, _, _ => .error .generic
  | fuel + 1, acc, Tok.plus :: ts => do
    let (v, ts1) ← parseT fuel ts
    parseETail fuel (acc + v) ts1
  | fuel + 1, acc, Tok.minus :: ts => do
    let (v, ts1) ← parseT fuel ts
    parseETail fuel (acc - v) ts1
  | _ + 1, acc, ts => .ok (acc, ts)

/-- `term := unary (('*'|'/'|'//') unary)*`. -/
def parseT : Nat → List Tok → Except CalcErr (ℚ × List Tok)
  | 0, _ => .error .generic
  | fuel + 1, ts => do
    let (v, ts1) ← parseU fuel ts
    parseTTail fuel v ts1

def parseTTail : Nat → ℚ → List Tok → Except CalcErr (ℚ × List Tok)
  | 0, _, _ => .error .generic
  | fuel + 1, acc, Tok.star :: ts => do
    let (v, ts1) ← parseU fuel ts
    parseTTail fuel (acc * v) ts1
  | fuel + 1, acc, Tok.slash :: ts => do
    let (v, ts1) ← parseU fuel ts
    let r ← pyDiv acc v
    parseTTail fuel r ts1
  | fuel + 1, acc, Tok.dslash :: ts => do
    let (v, ts1) ← parseU fuel ts
    let r ← pyFloorDiv acc v
    parseTTail fuel r ts1
  | _ + 1, acc, ts => .ok (acc, ts)

/-- `unary := ('-'|'+')* power`; unary minus binds looser than `**` on
its left, as in Python (`-2**2 = -4`). -/
def parseU : Nat → List Tok → Except CalcErr (ℚ × List Tok)
  | 0, _ => .error .generic
  | fuel + 1, Tok.minus :: ts => do
    let (v, ts1) ← parseU fuel ts
    .ok (-v, ts1)
  | fuel + 1, Tok.plus :: ts => parseU fuel ts
  | fuel + 1, ts => parseP fuel ts

/-- `power := atom ('**' unary)?`, right-associative with a possibly
signed exponent (`2**-2 = 1/4`). -/
def parseP : Nat → List Tok → Except CalcErr (ℚ × List Tok)
  | 0, _ => .error .generic
  | fuel + 1, ts => do
    let (a, ts1) ← parseA fuel ts
    match ts1 with
    | Tok.dstar :: ts2 => do
      let (e, ts3) ← parseU fuel ts2
      let r ← pyPow a e
      .ok (r, ts3)
    | _ => .ok (a, ts1)

/-- `atom := number | '(' expr ')'`. -/
def parseA : Nat → List Tok → Except CalcErr (ℚ × List Tok)
  | 0, _ => .error .generic
  | _ + 1, Tok.num q :: ts => .ok (q, ts)
  | fuel + 1, Tok.lp :: ts => do
    let (v, ts1) ← parseE fuel ts
    match ts1 with
    | Tok.rp :: ts2 => .ok (v, ts2)
    | _ => .error .synErr
  | _ + 1, _ => .error .synErr

end

/-- `eval(expr)` on the arithmetic sub-language reachable through the
character whitelist.  Inputs `eval` accepts that denote non-numbers
(such as `"()"`, an empty tuple) are impossible for a number-valued
grammar; here they come out as errors, and in the source they take the
not-a-number or generic-exception arm — `success=False` either way. -/
def pyEval (cs : List Char) : Except CalcErr ℚ := do
  let ts ← tokenize cs
  let (v, rest) ← parseE (5 * ts.length + 10) ts
  if rest.isEmpty then .ok v else .error .synErr

/-- The result dictionary of `safe_calculate`. -/
structure CalcResult where
  success : Bool
  result : Option ℚ := none
  error : Option String := none
  expression : String
  rtype : Option String := none
  deriving Repr, DecidableEq

/-- Embedding of `safe_calculate` (src/tools/calculator.py): remove
spaces, validate against the character whitelist, then evaluate; every
exception of the evaluation is caught and mapped to a `success=False`
record, so the function is total. -/
def safe_calculate (expression : String) : CalcResult :=
  let expr := stripSpaces expression
  if reMatchesWhitelist expr then
    match pyEval expr with
    | .ok v =>
      { success := true, result := some v, expression := expression,
        rtype := some "number" }
    | .error .divZero =>
      { success := false, error := some "除零错误", expression := expression }
    | .error .synErr =>
      { success := false, error := some "表达式语法错误", expression := expression }
    | .error .generic =>
      { success := false, error := some "计算错误", expression := expression }
  else
    { success := false, error := some "表达式包含不支持的字符",
      expression := expression }

end Calculator

namespace Maps

/-- Python dict assignment `d[k] = v` on an association list with unique
keys: replace in place, or append when absent. -/
def alSet {α : Type} (k : String) (v : α) : List (String × α) → List (String × α)
  | [] => [(k, v)]
  | (k', v') :: rest => if k' = k then (k, v) :: rest else (k', v') :: alSet k v rest

/-- Python dict lookup `d[k]` / membership `k in d`. -/
def alGet {α : Type} (k : String) : List (String × α) → Option α
  | [] => none
  | (k', v') :: rest => if k' = k then some v' else alGet k rest

end Maps

namespace VectorStore

/-- One raw hit of the chromadb `collection.query` reply: parallel entries
of `ids`, `documents`, `metadatas`, `distances` (src/utils/vector_store.py). -/
structure RawHit where
  id : String
  document : String
  metadata : List (String × String)
  distance : ℚ
  deriving Repr, DecidableEq

/-- One entry of the list `VectorStore.search` returns. -/
structure SearchResult where
  content : String
  metadata : List (String × String)
  similarity : ℚ
  distance : ℚ
  deriving Repr, DecidableEq

/-- The dictionary appended for a retained hit: `similarity = 1 - distance`. -/
def toResult (h : RawHit) : SearchResult :=
  { content := h.document, metadata := h.metadata,
    similarity := 1 - h.distance, distance := h.distance }

/-- Embedding of `VectorStore.search` (src/utils/vector_store.py).  The
`hits` parameter stands for the store's reply to
`collection.query(n_results=top_k)`: the at-most-`top_k` nearest
neighbours in ascending-distance order.  Distances are exact rationals
(floats modelled exactly). -/
def search (query : String) (hits : List RawHit) (min_score : ℚ) : List SearchResult :=
  if (PyStr.pyStrip query.data).isEmpty then []
  else
    hits.foldl
      (fun acc h =>
        if 1 - h.distance ≥ min_score then acc ++ [toResult h] else acc)
      []

end VectorStore

namespace Chunker

open PyStr

/-- Consume one expected character. -/
def expectChar (c : Char) : List Char → Option (List Char)
  | x :: rest => if x = c then some rest else none
  | [] => none

/-- Consume exactly `n` decimal digits (`\d{n}` as a prefix matcher). -/
def takeDigits : Nat → List Char → Option (List Char)
  | 0, cs => some cs
  | _ + 1, [] => none
  | n + 1, c :: cs => if c.isDigit then takeDigits n cs else none

/-- `\d{1,2}` followed by a literal `marker`, with the regex engine's
greedy-then-backtrack behaviour: try two digits, then one. -/
def digits12Then (marker : Char) (cs : List Char) : Option (List Char) :=
  match (takeDigits 2 cs).bind (expectChar marker) with
  | some r => some r
  | none => (takeDigits 1 cs).bind (expectChar marker)

/-- `^\d{4}-\d{2}-\d{2}` as a prefix matcher. -/
def matchISO (cs : List Char) : Bool :=
  ((((takeDigits 4 cs).bind (expectChar '-')).bind
      (takeDigits 2 · )).bind (fun r =>
        ((expectChar '-' r).bind (takeDigits 2 ·)))).isSome

/-- `^\d{4}年\d{1,2}月\d{1,2}日` as a prefix matcher. -/
def matchCN (cs : List Char) : Bool :=
  ((((takeDigits 4 cs).bind (expectChar '年')).bind
      (digits12Then '月')).bind (digits12Then '日')).isSome

/-- `^##\s*\d{4}` as a prefix matcher (`\s*` and `\d` are disjoint, so the
greedy scan is plain `dropWhile`). -/
def matchHashYear : List Char → Bool
  | '#' :: '#' :: rest => (takeDigits 4 (rest.dropWhile isPySpace)).isSome
  | _ => false

/-- The date pattern of `IntelligentNoteChunker.analyze_note_format`
(src/scripts/chunk_and_index.py):
`^\d{4}-\d{2}-\d{2}|^\d{4}年\d{1,2}月\d{1,2}日|^##\s*\d{4}`. -/
def datePatternMatch (cs : List Char) : Bool :=
  matchISO cs || matchCN cs || matchHashYear cs

/-- The header pattern `^#+\s+` as a prefix matcher. -/
def headerPatternMatch : List Char → Bool
  | '#' :: rest =>
    match rest.dropWhile (fun c => c = '#') with
    | c :: _ => isPySpace c
    | [] => false
  | _ => false

/-- The list-item pattern `^\s*[-*+]\s+|^\s*\d+\.\s+` as a prefix matcher. -/
def listPatternMatch (cs : List Char) : Bool :=
  let t := cs.dropWhile isPySpace
  (match t with
   | c :: c2 :: _ => (c = '-' || c = '*' || c = '+') && isPySpace c2
   | _ => false) ||
  (match t with
   | c :: _ =>
     c.isDigit &&
       (match t.dropWhile Char.isDigit with
        | '.' :: s :: _ => isPySpace s
        | _ => false)
   | [] => false)

/-- `sum(1 for line in lines if pattern.match(line.strip()))`. -/
def countMatching (p : List Char → Bool) (lines : List String) : Nat :=
  (lines.filter (fun l => p (pyStrip l.data))).length

/-- Embedding of `IntelligentNoteChunker.analyze_note_format`
(src/scripts/chunk_and_index.py).  The float threshold
`len(lines) * 0.3` is modelled as the exact `3/10` product: for every
line count `n` small enough to arise from a real document the IEEE
double product `n * 0.3` compares to an integer exactly as `3n/10` does
(in particular `10 * 0.3 == 3.0` exactly), so the branch taken is the
same. -/
def analyze_note_format (content : String) : String :=
  let lines := pySplitLines content
  let date_lines := countMatching datePatternMatch lines
  if date_lines > 1 then "date_entry"
  else
    let header_lines := countMatching headerPatternMatch lines
    let list_lines := countMatching listPatternMatch lines
    if header_lines > 2 then "section_based"
    else if (list_lines : ℚ) > (lines.length : ℚ) * (3 / 10) then "mixed_content"
    else "paragraph_based"

end Chunker

namespace MemoryManager

/-- Embedding of the `ConversationTurn` dataclass
(src/utils/memory_manager.py); instants are rationals measured in days. -/
structure ConversationTurn where
  timestamp : ℚ
  user_message : String
  ai_response : String
  context_used : List String := []
  tools_called : List String := []
  deriving Repr, DecidableEq

/-- Embedding of the `ConversationSession` dataclass. -/
structure ConversationSession where
  session_id : String
  start_time : ℚ
  last_update : ℚ
  turns : List ConversationTurn
  deriving Repr, DecidableEq

/-- `ConversationSession.add_turn`: append a turn stamped `now` and set
`last_update := now`.  The source calls `datetime.now()` twice in
immediate succession (turn timestamp, then `last_update`); the two
adjacent readings are modelled by the single instant `now`. -/
def ConversationSession.add_turn (s : ConversationSession) (now : ℚ)
    (user_message ai_response : String)
    (context_used tools_called : List String) : ConversationSession :=
  { s with
    turns := s.turns ++
      [{ timestamp := now, user_message := user_message,
         ai_response := ai_response, context_used := context_used,
         tools_called := tools_called }],
    last_update := now }

/-- Embedding of the `MemoryManager` object state: the in-memory
`sessions` dict, the in-memory `current_session`, and `persisted`, the
snapshot most recently written to disk by `_save_memory`
(`sessions.pkl` + `current_session.json`). -/
structure MMState where
  sessions : List (String × ConversationSession)
  current_session : Option ConversationSession
  persisted : Option (List (String × ConversationSession) × Option ConversationSession)
  deriving Repr, DecidableEq

/-- `MemoryManager._save_memory`: write both files from the in-memory
state. -/
def save_memory (m : MMState) : MMState :=
  { m with persisted := some (m.sessions, m.current_session) }

/-- `MemoryManager.create_session`: archive the current session if any,
install a fresh one, persist.  `fresh_id` stands for the generated
`f"session_{...}"` name when no id is passed. -/
def create_session (m : MMState) (now : ℚ) (fresh_id : String)
    (session_id : Option String) : MMState × String :=
  let sid := session_id.getD fresh_id
  let m1 :=
    match m.current_session with
    | some cur => { m with sessions := Maps.alSet cur.session_id cur m.sessions }
    | none => m
  let fresh : ConversationSession :=
    { session_id := sid, start_time := now, last_update := now, turns := [] }
  (save_memory { m1 with current_session := some fresh }, sid)

/-- `MemoryManager.add_conversation_turn`: create a session when none is
active, append the turn to the current session, store it in `sessions`,
persist.  The `try` block cannot fail in this pure model, so the
`return False` arm is unreachable here. -/
def add_conversation_turn (m : MMState) (now : ℚ) (fresh_id : String)
    (user_message ai_response : String)
    (context_used tools_called : List String) : MMState × Bool :=
  let m0 := if m.current_session.isNone then (create_session m now fresh_id none).1 else m
  match m0.current_session with
  | none => (m0, false)
  | some cur =>
    let cur' := cur.add_turn now user_message ai_response context_used tools_called
    let m1 := { m0 with
      current_session := some cur',
      sessions := Maps.alSet cur'.session_id cur' m0.sessions }
    (save_memory m1, true)

/-- `MemoryManager.clear_old_sessions` (src/utils/memory_manager.py):
collect the ids of sessions with `last_update < now - days`, delete them
from the dict, persist, and return how many were collected.  Time is
measured in days, so `timedelta(days=days)` is the rational `days`. -/
def clear_old_sessions (m : MMState) (now days : ℚ) : MMState × Nat :=
  let cutoff := now - days
  let old_ids :=
    (m.sessions.filter (fun p => p.2.last_update < cutoff)).map Prod.fst
  let m1 := { m with
    sessions := m.sessions.filter (fun p => ¬ p.1 ∈ old_ids) }
  (save_memory m1, old_ids.length)

/-- `MemoryManager.switch_session` (src/utils/memory_manager.py): an
unknown id returns `False` at once; otherwise the current session is
archived, the target becomes current, and the state is persisted. -/
def switch_session (m : MMState) (session_id : String) : Bool × MMState :=
  match Maps.alGet session_id m.sessions with
  | none => (false, m)
  | some target =>
    let m1 :=
      match m.current_session with
      | some cur => { m with sessions := Maps.alSet cur.session_id cur m.sessions }
      | none => m
    (true, save_memory { m1 with
      current_session := some ((Maps.alGet session_id m1.sessions).getD target) })

end MemoryManager

namespace PersonaService

/-- Embedding of `PersonaService._calculate_compatibility`
(src/demo/web_interface/backend/app/services/persona_service.py).
Overlaps are counted on deduplicated sets (`set(...) & set(...)`), while
`total_possible` uses the raw list lengths; `1.2` is the exact rational
`6/5` (the IEEE double `1.2` differs from `6/5` by less than `2 ** -52`,
which cannot move the result across the claimed `[0, 1]` bounds). -/
def calculate_compatibility (user_expertise user_interests
    ai_expertise ai_interests : List String) : ℚ :=
  let expertise_overlap := (user_expertise.toFinset ∩ ai_expertise.toFinset).card
  let interest_overlap := (user_interests.toFinset ∩ ai_interests.toFinset).card
  let total_possible : ℚ :=
    max (user_expertise.length + user_interests.length)
      (max (ai_expertise.length + ai_interests.length) 1)
  let compatibility := ((expertise_overlap : ℚ) + (interest_overlap : ℚ)) / total_possible
  min (compatibility * (6 / 5)) 1

end PersonaService

namespace SessionPersistence

/-- One stored chat message; `timestamp` is stamped by `save_message`. -/
structure Message where
  role : String
  content : String
  timestamp : ℚ := 0
  deriving Repr, DecidableEq

/-- One `sessions_index.json` entry (the fields the claims touch). -/
structure SessionData where
  session_id : String
  user_id : Option String
  created_at : ℚ
  updated_at : ℚ
  last_activity : ℚ
  message_count : Nat
  status : String
  deriving Repr, DecidableEq

/-- One per-session `<id>.json` file. -/
structure SessionFile where
  session_id : String
  messages : List Message
  persona_context : String := ""
  created_at : ℚ
  deriving Repr, DecidableEq

/-- The manager state: the in-memory index cache (mirrored to
`sessions_index.json` on every successful mutation) and the per-session
files of the storage directory. -/
structure SPState where
  index : List (String × SessionData)
  files : List (String × SessionFile)
  deriving Repr, DecidableEq

/-- Errors raised by the session-persistence layer. -/
inductive SPErr where
  | sessionExists (id : String)
  | sessionMissing (id : String)
  deriving Repr, DecidableEq

/-- Embedding of `SessionPersistence.create_session`
(src/demo/web_interface/backend/app/utils/session_persistence.py): an id
already present in the index raises `SessionError("会话已存在")` before
anything is written; otherwise an index entry with `message_count = 0`
and a session file with `messages = []` are created.  `fresh_id` stands
for the generated `uuid4` when no id is passed; file writes are modelled
as always succeeding (the cleanup arm for a failed write is therefore
unreachable here). -/
def create_session (st : SPState) (now : ℚ) (fresh_id : String)
    (session_id : Option String) (user_id : Option String) :
    Except SPErr (String × SPState) :=
  let sid := session_id.getD fresh_id
  if (Maps.alGet sid st.index).isSome then
    .error (.sessionExists sid)
  else
    let entry : SessionData :=
      { session_id := sid, user_id := user_id, created_at := now,
        updated_at := now, last_activity := now, message_count := 0,
        status := "active" }
    let file : SessionFile :=
      { session_id := sid, messages := [], created_at := now }
    .ok (sid, { index := Maps.alSet sid entry st.index,
                files := Maps.alSet sid file st.files })

/-- Embedding of `SessionPersistence.save_message`: unknown ids raise;
otherwise the message is stamped `now`, appended to the session file
(recreated empty if missing), and the index entry's `updated_at`,
`last_activity` and `message_count` are refreshed, the count being the
new length of the file's message list. -/
def save_message (st : SPState) (session_id : String) (msg : Message)
    (now : ℚ) : Except SPErr (Bool × SPState) :=
  match Maps.alGet session_id st.index with
  | none => .error (.sessionMissing session_id)
  | some entry =>
    let file :=
      match Maps.alGet session_id st.files with
      | some f => f
      | none => { session_id := session_id, messages := [], created_at := now }
    let file' := { file with messages := file.messages ++ [{ msg with timestamp := now }] }
    let entry' := { entry with
      updated_at := now, last_activity := now,
      message_count := file'.messages.length }
    .ok (true, { index := Maps.alSet session_id entry' st.index,
                 files := Maps.alSet session_id file' st.files })

/-- Embedding of `SessionPersistence.get_session_messages`: unknown ids
raise; a missing file yields `[]`; a truthy `limit` (`if limit:` — so
`None` and `0` both mean "all") keeps only the last `limit` messages. -/
def get_session_messages (st : SPState) (session_id : String)
    (limit : Option Nat) : Except SPErr (List Message) :=
  match Maps.alGet session_id st.index with
  | none => .error (.sessionMissing session_id)
  | some _ =>
    match Maps.alGet session_id st.files with
    | none => .ok []
    | some f =>
      match limit with
      | some n =>
        if n ≠ 0 then .ok (f.messages.drop (f.messages.length - n))
        else .ok f.messages
      | none => .ok f.messages

/-- Embedding of `SessionPersistence.get_session_info` restricted to the
index entry it copies (the derived statistics the source adds on top do
not overwrite `message_count`). -/
def get_session_info (st : SPState) (session_id : String) :
    Except SPErr SessionData :=
  match Maps.alGet session_id st.index with
  | none => .error (.sessionMissing session_id)
  | some entry => .ok entry

end SessionPersistence

namespace RateLimiter

/-- The limiter's `self.requests` dict, total with default `[]` (absent
keys are created empty before use).  Request instants are rationals in
seconds, standing for `time.time()`. -/
abbrev RLState := String → List ℚ

/-- The freshly constructed limiter. -/
def emptyState : RLState := fun _ => []

/-- Write one key's timestamp list. -/
def updateKey (st : RLState) (k : String) (l : List ℚ) : RLState :=
  fun k' => if k' = k then l else st k'

/-- The pruning step of `is_allowed`: keep timestamps with
`now - req_time < window`. -/
def prune (now window : ℚ) (l : List ℚ) : List ℚ :=
  l.filter (fun t => now - t < window)

/-- Embedding of `RateLimiter.is_allowed`
(src/demo/web_interface/backend/app/core/security.py): prune the key's
list, deny when it already holds `limit` entries, otherwise record `now`
and allow.  The pruned list is written back in both outcomes, as in the
source. -/
def is_allowed (st : RLState) (now : ℚ) (key : String) (limit : Nat)
    (window : ℚ) : Bool × RLState :=
  let pruned := prune now window (st key)
  if limit ≤ pruned.length then (false, updateKey st key pruned)
  else (true, updateKey st key (pruned ++ [now]))

/-- Embedding of `rate_limit_dependency`: consult the shared limiter with
`limit=100, window=60` and raise `HTTPException(429)` on denial; the
limiter state is mutated either way. -/
def rate_limit_dependency (st : RLState) (now : ℚ) (client_ip : String) :
    Except Nat Unit × RLState :=
  let r := is_allowed st now client_ip 100 60
  (if r.1 then .ok () else .error 429, r.2)

/-- Run a request trace through the limiter from the fresh state,
logging each request with its decision. -/
def runLog (limit : Nat) (window : ℚ) (trace : List (ℚ × String)) :
    RLState × List (ℚ × String × Bool) :=
  trace.foldl
    (fun acc req =>
      let r := is_allowed acc.1 req.1 req.2 limit window
      (r.2, acc.2 ++ [(req.1, req.2, r.1)]))
    (emptyState, [])

/-- The limiter state after a trace. -/
def runState (limit : Nat) (window : ℚ) (trace : List (ℚ × String)) : RLState :=
  (runLog limit window trace).1

/-- The decision the limiter gives a further request `(now, key)` after a
trace. -/
def decisionAfter (limit : Nat) (window : ℚ) (trace : List (ℚ × String))
    (now : ℚ) (key : String) : Bool :=
  (is_allowed (runState limit window trace) now key limit window).1

/-- Timestamps of the requests of key `k` that the limiter allowed along
the trace, in trace order. -/
def allowedTimes (limit : Nat) (window : ℚ) (trace : List (ℚ × String))
    (k : String) : List ℚ :=
  (((runLog limit window trace).2.filter
      (fun e => e.2.1 == k && e.2.2)).map (fun e => e.1))

/-- The request times of a trace are non-decreasing (the environment
assumption that `time.time()` readings do not go backwards). -/
def TimesMono (trace : List (ℚ × String)) : Prop :=
  List.Sorted (· ≤ ·) (trace.map Prod.fst)

end RateLimiter

namespace Samples

/-- A session whose `last_update` (day 0) is 35 days before day 35. -/
def oldSession : MemoryManager.ConversationSession :=
  { session_id := "old", start_time := 0, last_update := 0, turns := [] }

/-- A session whose `last_update` (day 30) is 5 days before day 35. -/
def recentSession : MemoryManager.ConversationSession :=
  { session_id := "recent", start_time := 30, last_update := 30, turns := [] }

/-- A manager holding the two sessions above. -/
def mmTwo : MemoryManager.MMState :=
  { sessions := [("old", oldSession), ("recent", recentSession)],
    current_session := none, persisted := none }

/-- A manager holding one session and an active current session. -/
def mmOne : MemoryManager.MMState :=
  { sessions := [("old", oldSession)], current_session := some recentSession,
    persisted := none }

/-- Raw hits with similarities 9/10, 1/2 and 1/5. -/
def hitA : VectorStore.RawHit :=
  { id := "a", document := "da", metadata := [], distance := 1 / 10 }

def hitB : VectorStore.RawHit :=
  { id := "b", document := "db", metadata := [], distance := 1 / 2 }

def hitC : VectorStore.RawHit :=
  { id := "c", document := "dc", metadata := [], distance := 4 / 5 }

/-- A fresh session-persistence store. -/
def spEmpty : SessionPersistence.SPState := { index := [], files := [] }

def msg1 : SessionPersistence.Message := { role := "user", content := "hi" }

/-- The index entry created for `"s1"` at instant 0. -/
def spEntry0 : SessionPersistence.SessionData :=
  { session_id := "s1", user_id := none, created_at := 0, updated_at := 0,
    last_activity := 0, message_count := 0, status := "active" }

/-- The session file created for `"s1"` at instant 0. -/
def spFile0 : SessionPersistence.SessionFile :=
  { session_id := "s1", messages := [], created_at := 0 }

/-- The store right after `create_session("s1")` on a fresh store. -/
def spOne : SessionPersistence.SPState :=
  { index := [("s1", spEntry0)], files := [("s1", spFile0)] }

def spEntry1 : SessionPersistence.SessionData :=
  { spEntry0 with updated_at := 2, last_activity := 2, message_count := 1 }

def spFile1 : SessionPersistence.SessionFile :=
  { spFile0 with messages := [{ role := "user", content := "hi", timestamp := 2 }] }

/-- The store after additionally saving one message at instant 2. -/
def spTwo : SessionPersistence.SPState :=
  { index := [("s1", spEntry1)], files := [("s1", spFile1)] }

def dateDoc : String := "2024-01-01 first\n2024-01-02 second"

def sectionDoc : String := "# a\n## b\n### c\ntext here"

def mixedDoc : String := "- a\n- b\n- c\nplain"

def paraDoc : String := "hello\nworld"

/-- 100 requests from one client at instant 0. -/
def burst : List (ℚ × String) := List.replicate 100 ((0 : ℚ), "client")

end Samples

namespace Maps

theorem alGet_alSet_self {α : Type} (k : String) (v : α) (l : List (String × α)) :
    alGet k (alSet k v l) = some v := by
  induction l with
  | nil => simp [alSet, alGet]
  | cons p rest ih =>
    by_cases h : p.1 = k
    · simp [alSet, alGet, h]
    · simp only [alSet, alGet, h, if_false]
      exact ih

end Maps

/-- C10: for every manager state and every session id absent from the
sessions map, `MemoryManager.switch_session` returns `False` and leaves
the whole manager state — current session, sessions map, and persisted
files — unchanged. -/
theorem C10_switch_session_unknown_id (m : MemoryManager.MMState) (sid : String)
    (h : Maps.alGet sid m.sessions = none) :
    MemoryManager.switch_session m sid = (false, m) := by
  unfold MemoryManager.switch_session
  rw [h]

/-- C10 witness: a concrete manager with only session `"old"`, switched
to the unknown id `"s2"`. -/
theorem C10_switch_session_unknown_id_witness :
    Maps.alGet "s2" Samples.mmOne.sessions = none ∧
      MemoryManager.switch_session Samples.mmOne "s2" = (false, Samples.mmOne) :=
  ⟨by decide, C10_switch_session_unknown_id Samples.mmOne "s2" (by decide)⟩


/-- C7: `MemoryManager.clear_old_sessions(days)` deletes exactly the
sessions whose `last_update` is older than `now - days`, keeps every
other session, and returns the number deleted.  The hypothesis that the
session ids are distinct is the dict invariant of `self.sessions`. -/
theorem C7_clear_old_sessions (m : MemoryManager.MMState) (now days : ℚ)
    (hnd : (m.sessions.map Prod.fst).Nodup) :
    (MemoryManager.clear_old_sessions m now days).1.sessions =
      m.sessions.filter (fun p => ¬ p.2.last_update < now - days) ∧
    (MemoryManager.clear_old_sessions m now days).2 =
      (m.sessions.filter (fun p => p.2.last_update < now - days)).length := by
  unfold MemoryManager.clear_old_sessions MemoryManager.save_memory
  refine ⟨?_, by simp⟩
  simp only
  apply List.filter_congr
  intro p hp
  have hiff : (p.1 ∈ (m.sessions.filter
      (fun q => decide (q.2.last_update < now - days))).map Prod.fst) ↔
      p.2.last_update < now - days := by
    constructor
    · intro hmem
      rcases List.mem_map.mp hmem with ⟨q, hq, hq1⟩
      rcases List.mem_filter.mp hq with ⟨hqm, hqc⟩
      have : q = p := List.inj_on_of_nodup_map hnd hqm hp hq1
      subst this
      exact of_decide_eq_true hqc
    · intro hc
      exact List.mem_map.mpr ⟨p, List.mem_filter.mpr ⟨hp, decide_eq_true hc⟩, rfl⟩
  simp [hiff]

/-- C7 witness: of a session last updated 35 days ago and one updated 5
days ago, `clear_old_sessions(30)` at day 35 removes exactly the first
and returns 1. -/
theorem C7_clear_old_sessions_witness :
    (Samples.mmTwo.sessions.map Prod.fst).Nodup ∧
    (MemoryManager.clear_old_sessions Samples.mmTwo 35 30).1.sessions =
      [("recent", Samples.recentSession)] ∧
    (MemoryManager.clear_old_sessions Samples.mmTwo 35 30).2 = 1 := by
  have hnd : (Samples.mmTwo.sessions.map Prod.fst).Nodup := by decide
  have h := C7_clear_old_sessions Samples.mmTwo 35 30 hnd
  refine ⟨hnd, ?_, ?_⟩
  · rw [h.1]
    norm_num [Samples.mmTwo, Samples.oldSession, Samples.recentSession]
  · rw [h.2]
    norm_num [Samples.mmTwo, Samples.oldSession, Samples.recentSession]

/-- C9: `ConversationSession.add_turn` appends the new turn and sets
`last_update` to the current instant, so under the clock assumption that
`now` is not earlier than the previous `last_update` the field is
non-decreasing; `MemoryManager.add_conversation_turn` routes through
`add_turn` on the current session, so its current session's
`last_update` is non-decreasing as well. -/
theorem C9_last_update_monotone (m : MemoryManager.MMState)
    (s : MemoryManager.ConversationSession) (now : ℚ) (fid u a : String)
    (cu tc : List String) (hcur : m.current_session = some s)
    (hclk : s.last_update ≤ now) :
    (s.add_turn now u a cu tc).turns =
      s.turns ++ [{ timestamp := now, user_message := u, ai_response := a,
                    context_used := cu, tools_called := tc }] ∧
    (s.add_turn now u a cu tc).last_update = now ∧
    s.last_update ≤ (s.add_turn now u a cu tc).last_update ∧
    (MemoryManager.add_conversation_turn m now fid u a cu tc).1.current_session =
      some (s.add_turn now u a cu tc) ∧
    (∀ s', (MemoryManager.add_conversation_turn m now fid u a cu tc).1.current_session
        = some s' → s.last_update ≤ s'.last_update) := by
  have hmain : (MemoryManager.add_conversation_turn m now fid u a cu tc).1.current_session
      = some (s.add_turn now u a cu tc) := by
    unfold MemoryManager.add_conversation_turn
    simp [hcur, MemoryManager.save_memory]
  refine ⟨rfl, rfl, hclk, hmain, ?_⟩
  intro s' hs'
  rw [hmain] at hs'
  cases hs'
  exact hclk

/-- C9 witness: appending a turn at instant 31 to a session last updated
at instant 30, through the manager. -/
theorem C9_last_update_monotone_witness :
    Samples.mmOne.current_session = some Samples.recentSession ∧
    Samples.recentSession.last_update ≤ 31 ∧
    (Samples.recentSession.add_turn 31 "hi" "hello" [] []).last_update = 31 ∧
    Samples.recentSession.last_update ≤
      (Samples.recentSession.add_turn 31 "hi" "hello" [] []).last_update := by
  have h := C9_last_update_monotone Samples.mmOne Samples.recentSession 31
    "fresh" "hi" "hello" [] [] rfl (by norm_num [Samples.recentSession])
  exact ⟨rfl, by norm_num [Samples.recentSession], h.2.1, h.2.2.1⟩

/-- C8: the compatibility score of `PersonaService._calculate_compatibility`
equals `min(1, (overlaps / max(total, total, 1)) * 1.2)`, always lies in
`[0, 1]`, and is `0` without division by zero when both personas have
empty expertise and interest lists. -/
theorem C8_compatibility_bounds (ue ui ae ai : List String) :
    (0 ≤ PersonaService.calculate_compatibility ue ui ae ai ∧
      PersonaService.calculate_compatibility ue ui ae ai ≤ 1) ∧
    PersonaService.calculate_compatibility ue ui ae ai =
      min 1 ((((ue.toFinset ∩ ae.toFinset).card + (ui.toFinset ∩ ai.toFinset).card : ℚ)
        / max ((ue.length : ℚ) + (ui.length : ℚ))
            (max ((ae.length : ℚ) + (ai.length : ℚ)) 1)) * (6 / 5)) ∧
    PersonaService.calculate_compatibility [] [] [] [] = 0 := by
  unfold PersonaService.calculate_compatibility
  have ht1 : (1 : ℚ) ≤ max ((ue.length : ℚ) + (ui.length : ℚ))
      (max ((ae.length : ℚ) + (ai.length : ℚ)) 1) :=
    le_trans (le_max_right _ 1) (le_max_right _ _)
  have ht0 : (0 : ℚ) < max ((ue.length : ℚ) + (ui.length : ℚ))
      (max ((ae.length : ℚ) + (ai.length : ℚ)) 1) :=
    lt_of_lt_of_le one_pos ht1
  refine ⟨⟨?_, ?_⟩, ?_, ?_⟩
  · apply le_min _ (by norm_num)
    apply mul_nonneg _ (by norm_num)
    apply div_nonneg _ (le_of_lt ht0)
    positivity
  · exact min_le_right _ _
  · rw [min_comm]
  · norm_num [PersonaService.calculate_compatibility]

namespace VectorStore

theorem foldl_keep_eq_filter_map {α β : Type} (P : α → Prop) [DecidablePred P]
    (f : α → β) (l : List α) (acc : List β) :
    l.foldl (fun a h => if P h then a ++ [f h] else a) acc =
      acc ++ (l.filter (fun h => decide (P h))).map f := by
  induction l generalizing acc with
  | nil => simp
  | cons x xs ih =>
    by_cases hx : P x
    · simp [hx, ih]
    · simp [hx, ih]

end VectorStore

/-- C3: `VectorStore.search` returns exactly the retrieved hits whose
similarity `1 - distance` is at least `min_score`, mapped to result
records in the store's return order; an empty or whitespace-only query
returns `[]` without consulting the hits at all. -/
theorem C3_search_filters (q : String) (hits : List VectorStore.RawHit) (ms : ℚ) :
    ((PyStr.pyStrip q.data).isEmpty = false →
      VectorStore.search q hits ms =
        (hits.filter (fun h => ms ≤ 1 - h.distance)).map VectorStore.toResult) ∧
    ((PyStr.pyStrip q.data).isEmpty = true →
      VectorStore.search q hits ms = []) := by
  constructor
  · intro hq
    unfold VectorStore.search
    rw [hq]
    simpa using VectorStore.foldl_keep_eq_filter_map
      (fun h => ms ≤ 1 - h.distance) VectorStore.toResult hits []
  · intro hq
    unfold VectorStore.search
    rw [hq]
    rfl

/-- C3 witness: hits with similarities 9/10, 1/2 and 1/5 under
`min_score = 3/10` yield exactly the first two, in order; a blank query
yields `[]`. -/
theorem C3_search_filters_witness :
    (PyStr.pyStrip "query".data).isEmpty = false ∧
    VectorStore.search "query" [Samples.hitA, Samples.hitB, Samples.hitC] (3 / 10) =
      [VectorStore.toResult Samples.hitA, VectorStore.toResult Samples.hitB] ∧
    (VectorStore.toResult Samples.hitA).similarity = 9 / 10 ∧
    (VectorStore.toResult Samples.hitB).similarity = 1 / 2 ∧
    (VectorStore.toResult Samples.hitC).similarity = 1 / 5 ∧
    VectorStore.search "  " [Samples.hitA, Samples.hitB, Samples.hitC] (3 / 10) = [] := by
  have hne : (PyStr.pyStrip "query".data).isEmpty = false := by decide
  have h := (C3_search_filters "query" [Samples.hitA, Samples.hitB, Samples.hitC] (3 / 10)).1 hne
  refine ⟨hne, ?_, ?_, ?_, ?_, ?_⟩
  · rw [h]
    norm_num [Samples.hitA, Samples.hitB, Samples.hitC, VectorStore.toResult,
      List.filter]
  · norm_num [Samples.hitA, VectorStore.toResult]
  · norm_num [Samples.hitB, VectorStore.toResult]
  · norm_num [Samples.hitC, VectorStore.toResult]
  · exact (C3_search_filters "  " [Samples.hitA, Samples.hitB, Samples.hitC] (3 / 10)).2
      (by decide)

/-- C6: `SessionPersistence.create_session` on an id already present in
the index raises a Session error (before anything is created); on a
freshly created session `get_session_messages` returns `[]`; and after
one `save_message` the recorded `message_count` is 1. -/
theorem C6_session_lifecycle (st : SessionPersistence.SPState)
    (id fresh : String) (u : Option String) (now now2 : ℚ)
    (msg : SessionPersistence.Message) :
    ((Maps.alGet id st.index).isSome = true →
      SessionPersistence.create_session st now fresh (some id) u =
        .error (.sessionExists id)) ∧
    (Maps.alGet id st.index = none →
      ∃ st', SessionPersistence.create_session st now fresh (some id) u =
          .ok (id, st') ∧
        SessionPersistence.get_session_messages st' id none = .ok [] ∧
        ∃ st'', SessionPersistence.save_message st' id msg now2 =
            .ok (true, st'') ∧
          ∃ e, SessionPersistence.get_session_info st'' id = .ok e ∧
            e.message_count = 1) := by
  constructor
  · intro h
    unfold SessionPersistence.create_session
    simp [h]
  · intro h
    have hiss : (Maps.alGet id st.index).isSome = false := by
      rw [h]; rfl
    refine ⟨⟨Maps.alSet id ⟨id, u, now, now, now, 0, "active"⟩ st.index,
             Maps.alSet id ⟨id, [], "", now⟩ st.files⟩, ?_, ?_,
            ⟨Maps.alSet id ⟨id, u, now, now2, now2, 1, "active"⟩
               (Maps.alSet id ⟨id, u, now, now, now, 0, "active"⟩ st.index),
             Maps.alSet id ⟨id, [{ msg with timestamp := now2 }], "", now⟩
               (Maps.alSet id ⟨id, [], "", now⟩ st.files)⟩, ?_,
            ⟨id, u, now, now2, now2, 1, "active"⟩, ?_, rfl⟩
    · unfold SessionPersistence.create_session
      simp [hiss]
    · unfold SessionPersistence.get_session_messages
      simp [Maps.alGet_alSet_self]
    · unfold SessionPersistence.save_message
      simp [Maps.alGet_alSet_self]
    · unfold SessionPersistence.get_session_info
      simp [Maps.alGet_alSet_self]

/-- C6 witness: the lifecycle on concrete stores — duplicate creation of
`"s1"` errors, the fresh session has no messages, and one saved message
makes `message_count = 1`. -/
theorem C6_session_lifecycle_witness :
    (Maps.alGet "s1" Samples.spOne.index).isSome = true ∧
    SessionPersistence.create_session Samples.spOne 1 "u" (some "s1") none =
      .error (.sessionExists "s1") ∧
    Maps.alGet "s1" Samples.spEmpty.index = none ∧
    SessionPersistence.create_session Samples.spEmpty 0 "u" (some "s1") none =
      .ok ("s1", Samples.spOne) ∧
    SessionPersistence.get_session_messages Samples.spOne "s1" none = .ok [] ∧
    SessionPersistence.save_message Samples.spOne "s1" Samples.msg1 2 =
      .ok (true, Samples.spTwo) ∧
    SessionPersistence.get_session_info Samples.spTwo "s1" =
      .ok Samples.spEntry1 ∧
    Samples.spEntry1.message_count = 1 ∧
    SessionPersistence.create_session Samples.spEmpty 0 "u" (some "s1") none ≠
      .error (.sessionExists "s1") := by
  have hdup := (C6_session_lifecycle Samples.spOne "s1" "u" none 1 2
    Samples.msg1).1 rfl
  obtain ⟨st', hc, -, -⟩ := (C6_session_lifecycle Samples.spEmpty "s1" "u" none 0 2
    Samples.msg1).2 rfl
  refine ⟨rfl, hdup, rfl, rfl, rfl, rfl, rfl, rfl, ?_⟩
  rw [hc]
  simp

/-- C4: `IntelligentNoteChunker.analyze_note_format` classifies by exactly
this decision order: `date_entry` when more than 1 line matches the date
pattern; else `section_based` when more than 2 lines match the header
pattern; else `mixed_content` when the list-item line count exceeds
`0.3` times the total line count; else `paragraph_based`. -/
theorem C4_analyze_note_format (content : String) :
    (Chunker.countMatching Chunker.datePatternMatch (PyStr.pySplitLines content) > 1 →
      Chunker.analyze_note_format content = "date_entry") ∧
    (Chunker.countMatching Chunker.datePatternMatch (PyStr.pySplitLines content) ≤ 1 →
     Chunker.countMatching Chunker.headerPatternMatch (PyStr.pySplitLines content) > 2 →
      Chunker.analyze_note_format content = "section_based") ∧
    (Chunker.countMatching Chunker.datePatternMatch (PyStr.pySplitLines content) ≤ 1 →
     Chunker.countMatching Chunker.headerPatternMatch (PyStr.pySplitLines content) ≤ 2 →
     ((Chunker.countMatching Chunker.listPatternMatch (PyStr.pySplitLines content) : ℚ) >
        ((PyStr.pySplitLines content).length : ℚ) * (3 / 10)) →
      Chunker.analyze_note_format content = "mixed_content") ∧
    (Chunker.countMatching Chunker.datePatternMatch (PyStr.pySplitLines content) ≤ 1 →
     Chunker.countMatching Chunker.headerPatternMatch (PyStr.pySplitLines content) ≤ 2 →
     ¬ ((Chunker.countMatching Chunker.listPatternMatch (PyStr.pySplitLines content) : ℚ) >
        ((PyStr.pySplitLines content).length : ℚ) * (3 / 10)) →
      Chunker.analyze_note_format content = "paragraph_based") := by
  unfold Chunker.analyze_note_format
  refine ⟨?_, ?_, ?_, ?_⟩
  · intro h1
    rw [if_pos h1]
  · intro h1 h2
    rw [if_neg (by omega), if_pos h2]
  · intro h1 h2 h3
    rw [if_neg (by omega), if_neg (by omega), if_pos h3]
  · intro h1 h2 h3
    rw [if_neg (by omega), if_neg (by omega), if_neg h3]

/-- C4 witness: four concrete documents, one per strategy. -/
theorem C4_analyze_note_format_witness :
    (Chunker.countMatching Chunker.datePatternMatch (PyStr.pySplitLines Samples.dateDoc) = 2 ∧
      Chunker.analyze_note_format Samples.dateDoc = "date_entry") ∧
    (Chunker.countMatching Chunker.datePatternMatch (PyStr.pySplitLines Samples.sectionDoc) = 0 ∧
      Chunker.countMatching Chunker.headerPatternMatch (PyStr.pySplitLines Samples.sectionDoc) = 3 ∧
      Chunker.analyze_note_format Samples.sectionDoc = "section_based") ∧
    (Chunker.countMatching Chunker.listPatternMatch (PyStr.pySplitLines Samples.mixedDoc) = 3 ∧
      (PyStr.pySplitLines Samples.mixedDoc).length = 4 ∧
      Chunker.analyze_note_format Samples.mixedDoc = "mixed_content") ∧
    Chunker.analyze_note_format Samples.paraDoc = "paragraph_based" := by
  have hmixc : Chunker.countMatching Chunker.listPatternMatch
      (PyStr.pySplitLines Samples.mixedDoc) = 3 := by decide
  have hmixn : (PyStr.pySplitLines Samples.mixedDoc).length = 4 := by decide
  refine ⟨⟨by decide, ?_⟩, ⟨by decide, by decide, ?_⟩, ⟨hmixc, hmixn, ?_⟩, ?_⟩
  · exact (C4_analyze_note_format Samples.dateDoc).1 (by decide)
  · exact (C4_analyze_note_format Samples.sectionDoc).2.1 (by decide) (by decide)
  · refine (C4_analyze_note_format Samples.mixedDoc).2.2.1 (by decide) (by decide) ?_
    rw [hmixc, hmixn]
    norm_num
  · refine (C4_analyze_note_format Samples.paraDoc).2.2.2 (by decide) (by decide) ?_
    have h1 : Chunker.countMatching Chunker.listPatternMatch
        (PyStr.pySplitLines Samples.paraDoc) = 0 := by decide
    have h2 : (PyStr.pySplitLines Samples.paraDoc).length = 2 := by decide
    rw [h1, h2]
    norm_num

namespace PersonaManager

open PyStr

theorem dropWhile_cons_not (p : Char → Bool) :
    ∀ (l : List Char) (c : Char) (cs : List Char),
      l.dropWhile p = c :: cs → p c = false := by
  intro l
  induction l with
  | nil => intro c cs h; cases h
  | cons a t ih =>
    intro c cs h
    rw [List.dropWhile_cons] at h
    by_cases hp : p a
    · rw [if_pos hp] at h
      exact ih c cs h
    · rw [if_neg hp] at h
      cases h
      exact eq_false_of_ne_true hp

theorem dropTrailingWs_cons_shape (c : Char) (cs : List Char) :
    dropTrailingWs (c :: cs) = [] ∨ ∃ r, dropTrailingWs (c :: cs) = c :: r := by
  rw [dropTrailingWs]
  split
  · exact Or.inl rfl
  · exact Or.inr ⟨_, rfl⟩

/-- A stripped line cannot start with `'  - '`: `strip()` leaves no
leading whitespace, and `'  - '` starts with a space. -/
theorem pyStrip_not_startsWith_item (l : List Char) :
    startsWithL (pyStrip l) "  - ".data = false := by
  unfold pyStrip
  cases hd : l.dropWhile isPySpace with
  | nil => rfl
  | cons c cs =>
    have hc : isPySpace c = false := dropWhile_cons_not isPySpace l c cs hd
    rcases dropTrailingWs_cons_shape c cs with h | ⟨r, h⟩
    · rw [h]; rfl
    · rw [h]
      have hstep : startsWithL (c :: r) "  - ".data =
          (decide (c = ' ') && startsWithL r [' ', '-', ' ']) := rfl
      have hcsp : decide (c = ' ') = false := by
        apply decide_eq_false
        intro hsp
        rw [hsp] at hc
        simp [isPySpace] at hc
      rw [hstep, hcsp, Bool.false_and]

theorem parseLine_preserves_lists (st : String × PersonaInfo) (raw : String) :
    (parseLine st raw).2.expertise_areas = st.2.expertise_areas ∧
    (parseLine st raw).2.interests = st.2.interests := by
  have hb := pyStrip_not_startsWith_item raw.data
  simp only [parseLine, hb, Bool.false_and]
  split_ifs <;>
    first
      | exact ⟨rfl, rfl⟩
      | contradiction
      | ((rcases splitFirst ':' (List.drop 4 (pyStrip raw.data)) with _ | ⟨k, v⟩) <;>
          dsimp only <;> (try split_ifs) <;> exact ⟨rfl, rfl⟩)

theorem foldl_parseLine_preserves_lists (lines : List String)
    (st : String × PersonaInfo) :
    (List.foldl parseLine st lines).2.expertise_areas = st.2.expertise_areas ∧
    (List.foldl parseLine st lines).2.interests = st.2.interests := by
  induction lines generalizing st with
  | nil => exact ⟨rfl, rfl⟩
  | cons l ls ih =>
    rw [List.foldl_cons]
    have h := parseLine_preserves_lists st l
    have h2 := ih (parseLine st l)
    exact ⟨h2.1.trans h.1, h2.2.trans h.2⟩

end PersonaManager

/-- C1 (refutation of the claimed routing): the item branch of
`PersonaManager._parse_markdown_persona` tests `line.startswith('  - ')`
on the already-stripped line, which can never succeed, so no nested list
item is ever appended — `expertise_areas` and `interests` stay empty for
every document; in particular a document with an expertise section and a
nested item yields the default persona. -/
theorem C1_persona_items_never_parsed :
    (∀ content : String,
      (PersonaManager.parse_markdown_persona content).expertise_areas = [] ∧
      (PersonaManager.parse_markdown_persona content).interests = []) ∧
    PersonaManager.parse_markdown_persona "# Expertise Areas\n  - Python" =
      { } := by
  constructor
  · intro content
    exact PersonaManager.foldl_parseLine_preserves_lists
      (PyStr.pySplitLines content) ("", {})
  · decide

namespace RateLimiter

theorem runLog_concat (l : Nat) (w : ℚ) (τ : List (ℚ × String)) (r : ℚ × String) :
    runLog l w (τ ++ [r]) =
      ((is_allowed (runLog l w τ).1 r.1 r.2 l w).2,
        (runLog l w τ).2 ++ [(r.1, r.2, (is_allowed (runLog l w τ).1 r.1 r.2 l w).1)]) := by
  unfold runLog
  rw [List.foldl_append]
  rfl

theorem runState_concat (l : Nat) (w : ℚ) (τ : List (ℚ × String)) (r : ℚ × String) :
    runState l w (τ ++ [r]) = (is_allowed (runState l w τ) r.1 r.2 l w).2 := by
  unfold runState
  rw [runLog_concat]

theorem prune_append (now w : ℚ) (A B : List ℚ) :
    prune now w (A ++ B) = prune now w A ++ prune now w B := by
  unfold prune
  rw [List.filter_append]

theorem allowedTimes_concat (l : Nat) (w : ℚ) (τ : List (ℚ × String))
    (t : ℚ) (j k : String) :
    allowedTimes l w (τ ++ [(t, j)]) k =
      allowedTimes l w τ k ++
        (if j = k ∧ (is_allowed (runState l w τ) t j l w).1 = true then [t] else []) := by
  unfold allowedTimes
  rw [runLog_concat, List.filter_append, List.map_append]
  congr 1
  by_cases hjk : j = k
  · subst hjk
    by_cases hb : (is_allowed (runState l w τ) t j l w).1 = true
    · rw [if_pos ⟨rfl, hb⟩]
      have hb' : (is_allowed (runLog l w τ).1 t j l w).1 = true := hb
      simp [List.filter, hb']
    · rw [if_neg (fun hcon => hb hcon.2)]
      have hb' : (is_allowed (runLog l w τ).1 t j l w).1 = false :=
        eq_false_of_ne_true hb
      simp [List.filter, hb']
  · rw [if_neg (fun hcon => hjk hcon.1)]
    have hne : (j == k) = false := by
      exact beq_eq_false_iff_ne.mpr hjk
    simp [List.filter, hne]

theorem timesMono_append_left {τ : List (ℚ × String)} {x : ℚ × String}
    (h : TimesMono (τ ++ [x])) : TimesMono τ := by
  unfold TimesMono at h ⊢
  rw [List.map_append] at h
  exact (List.pairwise_append.mp h).1

theorem timesMono_append_le {τ : List (ℚ × String)} {x : ℚ × String}
    (h : TimesMono (τ ++ [x])) : ∀ u ∈ τ.map Prod.fst, u ≤ x.1 := by
  unfold TimesMono at h
  rw [List.map_append] at h
  intro u hu
  exact (List.pairwise_append.mp h).2.2 u hu x.1 (by simp)

theorem filter_window_filter (w t now : ℚ) (ht : t ≤ now) (A : List ℚ) :
    (A.filter (fun u => decide (t - u < w))).filter (fun u => decide (now - u < w)) =
      A.filter (fun u => decide (now - u < w)) := by
  rw [List.filter_filter]
  apply List.filter_congr
  intro u _
  by_cases h : now - u < w
  · have h2 : t - u < w := by linarith
    simp [h, h2]
  · simp [h]

theorem prune_runState (l : Nat) (w : ℚ) :
    ∀ τ : List (ℚ × String), TimesMono τ →
      ∀ now : ℚ, (∀ u ∈ τ.map Prod.fst, u ≤ now) →
        ∀ k, prune now w (runState l w τ k) =
          (allowedTimes l w τ k).filter (fun u => decide (now - u < w)) := by
  intro τ
  induction τ using List.reverseRecOn with
  | nil => intro _ now _ k; rfl
  | append_singleton σ x ih =>
    obtain ⟨t, j⟩ := x
    intro hmono now hle k
    have hmσ : TimesMono σ := timesMono_append_left hmono
    have htmax : ∀ u ∈ σ.map Prod.fst, u ≤ t := timesMono_append_le hmono
    have hnow_t : t ≤ now := hle t (by simp)
    have hnow_σ : ∀ u ∈ σ.map Prod.fst, u ≤ now :=
      fun u hu => le_trans (htmax u hu) hnow_t
    have ihτ := ih hmσ
    rw [runState_concat, allowedTimes_concat]
    by_cases hjk : j = k
    · subst hjk
      have hP : prune t w (runState l w σ j) =
          (allowedTimes l w σ j).filter (fun u => decide (t - u < w)) :=
        ihτ t htmax j
      by_cases hfull : l ≤ (prune t w (runState l w σ j)).length
      · have hstep : (is_allowed (runState l w σ) t j l w).2 j =
            prune t w (runState l w σ j) := by
          simp only [is_allowed]
          rw [if_pos hfull]
          simp [updateKey]
        have hb : (is_allowed (runState l w σ) t j l w).1 = false := by
          simp only [is_allowed]
          rw [if_pos hfull]
        rw [hstep, hP]
        rw [if_neg (fun hcon => Bool.false_ne_true (hb ▸ hcon.2))]
        rw [List.append_nil]
        unfold prune
        rw [filter_window_filter w t now hnow_t]
      · have hstep : (is_allowed (runState l w σ) t j l w).2 j =
            prune t w (runState l w σ j) ++ [t] := by
          simp only [is_allowed]
          rw [if_neg hfull]
          simp [updateKey]
        have hb : (is_allowed (runState l w σ) t j l w).1 = true := by
          simp only [is_allowed]
          rw [if_neg hfull]
        rw [hstep, hP]
        rw [if_pos ⟨rfl, hb⟩]
        unfold prune
        simp only [List.filter_append]
        rw [filter_window_filter w t now hnow_t]
    · have hst : (is_allowed (runState l w σ) t j l w).2 k = runState l w σ k := by
        simp only [is_allowed]
        split_ifs <;> simp [updateKey, Ne.symm hjk]
      rw [hst, ihτ now hnow_σ k]
      rw [if_neg (fun hcon => hjk hcon.1)]
      rw [List.filter_append]
      simp

theorem decisionAfter_iff (l : Nat) (w : ℚ) (τ : List (ℚ × String))
    (T : ℚ) (k : String) (hmono : TimesMono (τ ++ [(T, k)])) :
    decisionAfter l w τ T k =
      decide (((allowedTimes l w τ k).filter
        (fun u => decide (T - u < w))).length < l) := by
  have hmσ : TimesMono τ := timesMono_append_left hmono
  have hle : ∀ u ∈ τ.map Prod.fst, u ≤ T :=
    timesMono_append_le (x := (T, k)) hmono
  simp only [decisionAfter, is_allowed]
  rw [prune_runState l w τ hmσ T hle k]
  split_ifs with h
  · symm
    apply decide_eq_false
    omega
  · symm
    apply decide_eq_true
    omega

theorem window_bound (l : Nat) (w : ℚ) (k : String) (a : ℚ) :
    ∀ τ : List (ℚ × String), TimesMono τ →
      ((allowedTimes l w τ k).filter
        (fun u => decide (a < u ∧ u ≤ a + w))).length ≤ l := by
  intro τ
  induction τ using List.reverseRecOn with
  | nil => intro _; simp [allowedTimes, runLog]
  | append_singleton σ x ih =>
    obtain ⟨t, j⟩ := x
    intro hmono
    have hmσ : TimesMono σ := timesMono_append_left hmono
    rw [allowedTimes_concat]
    by_cases hcase : j = k ∧ (is_allowed (runState l w σ) t j l w).1 = true
    · rw [if_pos hcase]
      obtain ⟨hjk, hb⟩ := hcase
      subst hjk
      have hdec := decisionAfter_iff l w σ t j hmono
      have hlen : ((allowedTimes l w σ j).filter
          (fun u => decide (t - u < w))).length < l := by
        apply of_decide_eq_true
        rw [← hdec]
        exact hb
      rw [List.filter_append, List.length_append]
      by_cases hin : a < t ∧ t ≤ a + w
      · have hd : decide (a < t ∧ t ≤ a + w) = true := decide_eq_true hin
        have hfil : [t].filter (fun u => decide (a < u ∧ u ≤ a + w)) = [t] := by
          simp [List.filter, hd]
        rw [hfil]
        have hsub : ((allowedTimes l w σ j).filter
              (fun u => decide (a < u ∧ u ≤ a + w))).length ≤
            ((allowedTimes l w σ j).filter
              (fun u => decide (t - u < w))).length := by
          apply List.Sublist.length_le
          apply List.monotone_filter_right
          intro u hu
          have h1 := of_decide_eq_true hu
          apply decide_eq_true
          have haw : a ≥ t - w := by linarith [hin.2]
          linarith [h1.1]
        simp only [List.length_singleton]
        omega
      · have hd : decide (a < t ∧ t ≤ a + w) = false := decide_eq_false hin
        have hfil : [t].filter (fun u => decide (a < u ∧ u ≤ a + w)) = [] := by
          simp [List.filter, hd]
        rw [hfil]
        simpa using ih hmσ
    · rw [if_neg hcase]
      simpa using ih hmσ

end RateLimiter

/-- C5: under the shared dependency's configuration (`limit=100`,
`window=60`), the limiter never lets a key exceed 100 allowed requests in
any rolling 60-second window; a further request while 100 allowed ones
lie inside its window is denied and the dependency raises 429; and a
request arriving at least 60 seconds after every allowed one is allowed
again.  The monotone-trace hypothesis is the environment assumption that
`time.time()` readings do not decrease. -/
theorem C5_rate_limiter_sliding_window (τ : List (ℚ × String)) (T a : ℚ)
    (k : String) (hmono : RateLimiter.TimesMono (τ ++ [(T, k)])) :
    ((RateLimiter.allowedTimes 100 60 τ k).filter
        (fun u => decide (a < u ∧ u ≤ a + 60))).length ≤ 100 ∧
    (100 ≤ ((RateLimiter.allowedTimes 100 60 τ k).filter
        (fun u => decide (T - u < 60))).length →
      RateLimiter.decisionAfter 100 60 τ T k = false ∧
      (RateLimiter.rate_limit_dependency (RateLimiter.runState 100 60 τ) T k).1 =
        .error 429) ∧
    ((∀ u ∈ RateLimiter.allowedTimes 100 60 τ k, 60 ≤ T - u) →
      RateLimiter.decisionAfter 100 60 τ T k = true ∧
      (RateLimiter.rate_limit_dependency (RateLimiter.runState 100 60 τ) T k).1 =
        .ok ()) := by
  have hmσ : RateLimiter.TimesMono τ := RateLimiter.timesMono_append_left hmono
  have hdec := RateLimiter.decisionAfter_iff 100 60 τ T k hmono
  refine ⟨RateLimiter.window_bound 100 60 k a τ hmσ, ?_, ?_⟩
  · intro hfull
    have hd : RateLimiter.decisionAfter 100 60 τ T k = false := by
      rw [hdec]
      apply decide_eq_false
      omega
    refine ⟨hd, ?_⟩
    have hd' : (RateLimiter.is_allowed (RateLimiter.runState 100 60 τ) T k
        100 60).1 = false := hd
    simp only [RateLimiter.rate_limit_dependency]
    rw [hd']
    rfl
  · intro hempty
    have hnil : (RateLimiter.allowedTimes 100 60 τ k).filter
        (fun u => decide (T - u < 60)) = [] := by
      apply List.filter_eq_nil_iff.mpr
      intro u hu
      simp only [decide_eq_true_eq]
      intro hlt
      have := hempty u hu
      linarith
    have hd : RateLimiter.decisionAfter 100 60 τ T k = true := by
      rw [hdec, hnil]
      apply decide_eq_true
      simp
    refine ⟨hd, ?_⟩
    have hd' : (RateLimiter.is_allowed (RateLimiter.runState 100 60 τ) T k
        100 60).1 = true := hd
    simp only [RateLimiter.rate_limit_dependency]
    rw [hd']
    rfl

namespace RateLimiter

theorem timesMono_zero_burst (n : Nat) :
    TimesMono (List.replicate n ((0 : ℚ), "client")) := by
  unfold TimesMono
  rw [List.map_replicate]
  induction n with
  | zero => simp
  | succ m ih =>
    rw [List.replicate_succ]
    exact List.Pairwise.cons
      (fun b hb => le_of_eq (List.eq_of_mem_replicate hb).symm) ih

theorem filter_in_window_replicate (n : Nat) :
    (List.replicate n (0 : ℚ)).filter (fun u => decide ((0 : ℚ) - u < 60)) =
      List.replicate n (0 : ℚ) := by
  have h : decide ((0 : ℚ) - 0 < 60) = true := decide_eq_true (by norm_num)
  induction n with
  | zero => rfl
  | succ m ih =>
    rw [List.replicate_succ, List.filter_cons, h, ih]
    simp

theorem burst_allowedTimes : ∀ n : Nat, n ≤ 100 →
    allowedTimes 100 60 (List.replicate n ((0 : ℚ), "client")) "client" =
      List.replicate n (0 : ℚ) := by
  intro n
  induction n with
  | zero => intro _; rfl
  | succ m ih =>
    intro hle
    have hm := ih (by omega)
    rw [List.replicate_succ' m, allowedTimes_concat]
    have hmono : TimesMono (List.replicate m ((0 : ℚ), "client") ++
        [((0 : ℚ), "client")]) := by
      rw [← List.replicate_succ' m]
      exact timesMono_zero_burst (m + 1)
    have hdec := decisionAfter_iff 100 60 (List.replicate m ((0 : ℚ), "client"))
      0 "client" hmono
    have hball : decisionAfter 100 60 (List.replicate m ((0 : ℚ), "client"))
        0 "client" = true := by
      rw [hdec, hm, filter_in_window_replicate m]
      apply decide_eq_true
      rw [List.length_replicate]
      omega
    rw [if_pos ⟨rfl, hball⟩, hm, ← List.replicate_succ']

end RateLimiter

/-- C5 witness: a burst of 100 requests at instant 0 from one client —
the 101st request at instant 0 is denied with HTTP 429; a lone request
at instant 0 followed by one at instant 60 is allowed again; a window
anchored at −30 holds at most 100 allowed requests. -/
theorem C5_rate_limiter_sliding_window_witness :
    RateLimiter.TimesMono (Samples.burst ++ [((0 : ℚ), "client")]) ∧
    100 ≤ ((RateLimiter.allowedTimes 100 60 Samples.burst "client").filter
        (fun u => decide ((0 : ℚ) - u < 60))).length ∧
    RateLimiter.decisionAfter 100 60 Samples.burst 0 "client" = false ∧
    (RateLimiter.rate_limit_dependency
        (RateLimiter.runState 100 60 Samples.burst) 0 "client").1 = .error 429 ∧
    (∀ u ∈ RateLimiter.allowedTimes 100 60 [((0 : ℚ), "client")] "client",
        60 ≤ (60 : ℚ) - u) ∧
    RateLimiter.decisionAfter 100 60 [((0 : ℚ), "client")] 60 "client" = true ∧
    (RateLimiter.rate_limit_dependency
        (RateLimiter.runState 100 60 [((0 : ℚ), "client")]) 60 "client").1 =
      .ok () ∧
    ((RateLimiter.allowedTimes 100 60 Samples.burst "client").filter
        (fun u => decide ((-30 : ℚ) < u ∧ u ≤ -30 + 60))).length ≤ 100 := by
  have hmono : RateLimiter.TimesMono (Samples.burst ++ [((0 : ℚ), "client")]) := by
    show RateLimiter.TimesMono (List.replicate 100 ((0 : ℚ), "client") ++ _)
    rw [← List.replicate_succ' 100]
    exact RateLimiter.timesMono_zero_burst 101
  have hat : RateLimiter.allowedTimes 100 60 Samples.burst "client" =
      List.replicate 100 (0 : ℚ) :=
    RateLimiter.burst_allowedTimes 100 (le_refl 100)
  have hfull : 100 ≤ ((RateLimiter.allowedTimes 100 60 Samples.burst
      "client").filter (fun u => decide ((0 : ℚ) - u < 60))).length := by
    rw [hat, RateLimiter.filter_in_window_replicate 100, List.length_replicate]
  have hbig := C5_rate_limiter_sliding_window Samples.burst 0 (-30) "client" hmono
  have hone : RateLimiter.allowedTimes 100 60 [((0 : ℚ), "client")] "client" =
      [(0 : ℚ)] := RateLimiter.burst_allowedTimes 1 (by omega)
  have hmono1 : RateLimiter.TimesMono ([((0 : ℚ), "client")] ++
      [((60 : ℚ), "client")]) := by
    unfold RateLimiter.TimesMono
    simp
  have hempty : ∀ u ∈ RateLimiter.allowedTimes 100 60 [((0 : ℚ), "client")]
      "client", 60 ≤ (60 : ℚ) - u := by
    rw [hone]
    intro u hu
    rw [List.mem_singleton] at hu
    subst hu
    norm_num
  have hsmall := C5_rate_limiter_sliding_window [((0 : ℚ), "client")] 60 0
    "client" hmono1
  exact ⟨hmono, hfull, (hbig.2.1 hfull).1, (hbig.2.1 hfull).2, hempty,
    (hsmall.2.2 hempty).1, (hsmall.2.2 hempty).2, hbig.1⟩

namespace Calculator

theorem valToNat0 : '0'.val.toNat = 48 := rfl

theorem valToNat1 : '1'.val.toNat = 49 := rfl

theorem valToNat2 : '2'.val.toNat = 50 := rfl

theorem valToNat3 : '3'.val.toNat = 51 := rfl

theorem valToNat4 : '4'.val.toNat = 52 := rfl

theorem reMatches_false_of_body_bad (cs : List Char) (c : Char)
    (hc : c ∈ whitelistBody cs) (hbad : allowedChar c = false) :
    reMatchesWhitelist cs = false := by
  have hall : (whitelistBody cs).all allowedChar = false := by
    apply eq_false_of_ne_true
    intro hall
    have := List.all_eq_true.mp hall c hc
    rw [hbad] at this
    exact Bool.false_ne_true this
  unfold reMatchesWhitelist
  rw [hall, Bool.and_false]

end Calculator

/-- C2 counterexample: the claim "any character outside the whitelist
makes `safe_calculate` return `success=false`" fails at `"1+1\n"` — the
newline is outside the whitelist, yet Python's `$` matches just before a
final newline, so the expression is evaluated and succeeds with result 2. -/
theorem C2_whitelist_counterexample :
    ('\n' ∈ Calculator.stripSpaces "1+1\n" ∧
      Calculator.allowedChar '\n' = false) ∧
    (Calculator.safe_calculate "1+1\n").success = true ∧
    (Calculator.safe_calculate "1+1\n").result = some 2 := by
  refine ⟨⟨by decide, by decide⟩, ?_, ?_⟩ <;>
  · simp only [Calculator.safe_calculate]
    norm_num +decide [Calculator.stripSpaces, Calculator.reMatchesWhitelist,
      Calculator.whitelistBody,
      Calculator.allowedChar, Calculator.pyEval, Calculator.tokenize,
      Calculator.isNumChar, Calculator.numOfRun, Calculator.digitsToNat,
      Calculator.parseE, Calculator.parseT, Calculator.parseU,
      Calculator.parseP, Calculator.parseA, Calculator.parseETail,
      Calculator.parseTTail, Calculator.pyDiv, Calculator.pyFloorDiv,
      Calculator.pyPow, String.data, Char.toNat, bind, Except.bind,
      Calculator.valToNat0, Calculator.valToNat1, Calculator.valToNat2,
      Calculator.valToNat3, Calculator.valToNat4]

/-- C2 (amended): `safe_calculate` is total and always returns a record
echoing the expression; a stripped expression containing any
non-whitelisted character other than a single trailing newline — that
is, a bad character still present after dropping one trailing newline
(`whitelistBody`), which also covers misplaced newlines as in
`"1+1\n2"` or `"1+1\n\n"` — yields `success=false`;
`"__import__('os')"` is rejected by the whitelist; `"2+3*4"` evaluates to
14; `"1/0"` reports the division-by-zero error string instead of
raising. -/
theorem C2_safe_calculate_amended (s : String) (c : Char)
    (hc : c ∈ Calculator.whitelistBody (Calculator.stripSpaces s))
    (hbad : Calculator.allowedChar c = false) :
    (Calculator.safe_calculate s).success = false ∧
    (∀ s' : String, (Calculator.safe_calculate s').expression = s') ∧
    (Calculator.safe_calculate "__import__('os')").success = false ∧
    Calculator.safe_calculate "2+3*4" =
      { success := true, result := some 14, expression := "2+3*4",
        rtype := some "number" } ∧
    Calculator.safe_calculate "1/0" =
      { success := false, error := some "除零错误", expression := "1/0" } := by
  refine ⟨?_, ?_, ?_, ?_, ?_⟩
  · have hre := Calculator.reMatches_false_of_body_bad
      (Calculator.stripSpaces s) c hc hbad
    simp [Calculator.safe_calculate, hre]
  · intro s'
    unfold Calculator.safe_calculate
    by_cases h : Calculator.reMatchesWhitelist (Calculator.stripSpaces s') = true
    · rw [if_pos h]
      cases hev : Calculator.pyEval (Calculator.stripSpaces s') with
      | ok v => simp
      | error e => cases e <;> simp
    · rw [if_neg h]
  · simp only [Calculator.safe_calculate]
    norm_num +decide [Calculator.stripSpaces, Calculator.reMatchesWhitelist,
      Calculator.whitelistBody,
      Calculator.allowedChar, String.data]
  · simp only [Calculator.safe_calculate]
    norm_num +decide [Calculator.stripSpaces, Calculator.reMatchesWhitelist,
      Calculator.whitelistBody,
      Calculator.allowedChar, Calculator.pyEval, Calculator.tokenize,
      Calculator.isNumChar, Calculator.numOfRun, Calculator.digitsToNat,
      Calculator.parseE, Calculator.parseT, Calculator.parseU,
      Calculator.parseP, Calculator.parseA, Calculator.parseETail,
      Calculator.parseTTail, Calculator.pyDiv, Calculator.pyFloorDiv,
      Calculator.pyPow, String.data, Char.toNat, bind, Except.bind,
      Calculator.valToNat0, Calculator.valToNat1, Calculator.valToNat2,
      Calculator.valToNat3, Calculator.valToNat4]
  · simp only [Calculator.safe_calculate]
    norm_num +decide [Calculator.stripSpaces, Calculator.reMatchesWhitelist,
      Calculator.whitelistBody,
      Calculator.allowedChar, Calculator.pyEval, Calculator.tokenize,
      Calculator.isNumChar, Calculator.numOfRun, Calculator.digitsToNat,
      Calculator.parseE, Calculator.parseT, Calculator.parseU,
      Calculator.parseP, Calculator.parseA, Calculator.parseETail,
      Calculator.parseTTail, Calculator.pyDiv, Calculator.pyFloorDiv,
      Calculator.pyPow, String.data, Char.toNat, bind, Except.bind,
      Calculator.valToNat0, Calculator.valToNat1, Calculator.valToNat2,
      Calculator.valToNat3, Calculator.valToNat4]

/-- C2 witness: the amended whitelist clause applied at
`"__import__('os')"` (offending character `'_'`) and at the
misplaced-newline inputs `"1+1\n2"` and `"1+1\n\n"`, whose only bad
characters are newlines not forming a single trailing newline. -/
theorem C2_safe_calculate_amended_witness :
    ('_' ∈ Calculator.whitelistBody (Calculator.stripSpaces "__import__('os')") ∧
      Calculator.allowedChar '_' = false) ∧
    (Calculator.safe_calculate "__import__('os')").success = false ∧
    ('\n' ∈ Calculator.whitelistBody (Calculator.stripSpaces "1+1\n2") ∧
      (Calculator.safe_calculate "1+1\n2").success = false) ∧
    ('\n' ∈ Calculator.whitelistBody (Calculator.stripSpaces "1+1\n\n") ∧
      (Calculator.safe_calculate "1+1\n\n").success = false) ∧
    (Calculator.safe_calculate "2+3*4").result = some 14 := by
  have h1 := C2_safe_calculate_amended "__import__('os')" '_'
    (by decide) (by decide)
  have h2 := C2_safe_calculate_amended "1+1\n2" '\n' (by decide) (by decide)
  have h3 := C2_safe_calculate_amended "1+1\n\n" '\n' (by decide) (by decide)
  refine ⟨⟨by decide, by decide⟩, h1.1, ⟨by decide, h2.1⟩, ⟨by decide, h3.1⟩, ?_⟩
  rw [h1.2.2.2.1]
